import Mathlib

/-!
Verification development for the Scalene statistical profiler
(`src/scalene/scalene.py`).

The profiler's state (the four sample tables, the global counters and the
sampling/timer state), its three interrupt handlers, its location filter
`should_trace`, the `start`/`stop`/`exit_handler` lifecycle and the relevant
report-time computations of `output_profiles` are embedded below as
executable Lean definitions.  Machine floats are modelled by exact rationals;
the Python runtime pieces the profiler relies on (`os.path.abspath`,
`os.path.normpath`, the substring test `in`, `functools.lru_cache`) are
modelled explicitly next to the code they serve.
-/

deriving instance DecidableEq for Except

namespace Scalene

/-! ### Strings and paths -/

/-- Model of the Python substring test `pat in s` on strings. -/
def strIn (pat s : String) : Bool := decide (pat.data <:+: s.data)

/-- Model of `posixpath.isabs`: the path starts with a slash. -/
def isAbs (p : String) : Bool := p.data.head? == some '/'

/-- Split a character list on `'/'`, exactly as Python's `str.split('/')`
splits a path into components (empty components are kept). -/
def splitSlash : List Char → List (List Char)
  | [] => [[]]
  | c :: rest =>
    let r := splitSlash rest
    if c = '/' then [] :: r
    else
      match r with
      | s :: ss => (c :: s) :: ss
      | [] => [[c]]

/-- Model of `posixpath.normpath`: collapse repeated slashes, drop `.`
components, resolve `..` against preceding components, and preserve the
special leading-`//` case. -/
def normpath (p : String) : String :=
  let l := p.data
  if l = [] then "." else
  let initSlashes : Nat :=
    match l with
    | '/' :: '/' :: '/' :: _ => 1
    | '/' :: '/' :: _ => 2
    | '/' :: _ => 1
    | _ => 0
  let comps := (splitSlash l).filter (fun c => decide (c ≠ []) && decide (c ≠ ['.']))
  let newComps := comps.foldl
    (fun acc comp =>
      if comp ≠ ['.', '.'] ∨ (initSlashes = 0 ∧ acc = []) ∨ acc.getLast? = some ['.', '.']
      then acc ++ [comp]
      else if acc ≠ [] then acc.dropLast
      else acc)
    ([] : List (List Char))
  let out := String.mk (List.replicate initSlashes '/') ++
    String.intercalate "/" (newComps.map String.mk)
  if out.data = [] then "." else out

/-- Model of `os.path.abspath` for POSIX paths: a relative path is joined to
the current working directory, then the result is normalized. -/
def abspath (cwd path : String) : String :=
  if isAbs path then normpath path else normpath (cwd ++ "/" ++ path)

/-! ### Python-level errors -/

/-- The Python exceptions the embedded code can raise. -/
inductive PyErr where
  | indexError
  | attributeError
deriving DecidableEq, Repr

/-! ### The location filter -/

/-- Model of `Scalene.should_trace`'s underlying function (the body behind
the `lru_cache` decoration), lines 181-194 of `scalene.py`.  `filename[0]`
raises `IndexError` on the empty string; otherwise filenames whose first
character is `'<'` and filenames containing the substring `'scalene.py'`
are rejected, and every other filename is resolved with `os.path.abspath`
and accepted iff `program_path` occurs in it as a substring. -/
def should_trace (program_path cwd filename : String) : Except PyErr Bool :=
  match filename.data with
  | [] => .error .indexError
  | c :: _ =>
    if c = '<' then .ok false
    else if strIn "scalene.py" filename then .ok false
    else .ok (strIn program_path (abspath cwd filename))

/-! ### Sample tables

`defaultdict(lambda: defaultdict(int))` is embedded as an association list
from filenames to association lists from line numbers to rational
accumulators; a missing key reads as `0`, and `+=` inserts or updates. -/

/-- The per-line table of one file (`defaultdict(int)`). -/
abbrev LineTable := List (Nat × ℚ)

/-- A two-level sample table (`defaultdict(lambda: defaultdict(int))`). -/
abbrev FileTable := List (String × LineTable)

/-- Read `t[l]`; a missing line reads as the `defaultdict` default `0`. -/
def lineGet : LineTable → Nat → ℚ
  | [], _ => 0
  | (l₀, v) :: t, l => if l₀ = l then v else lineGet t l

/-- `t[l] += v`, inserting the line if missing. -/
def lineAdd : LineTable → Nat → ℚ → LineTable
  | [], l, v => [(l, v)]
  | (l₀, x) :: t, l, v => if l₀ = l then (l₀, x + v) :: t else (l₀, x) :: lineAdd t l v

/-- Read `t[f]`; a missing file reads as the empty per-line table. -/
def fileGet : FileTable → String → LineTable
  | [], _ => []
  | (f₀, ft) :: t, f => if f₀ = f then ft else fileGet t f

/-- `t[f][l] += v`, inserting file and line if missing. -/
def tableAdd : FileTable → String → Nat → ℚ → FileTable
  | [], f, l, v => [(f, lineAdd [] l v)]
  | (f₀, ft) :: t, f, l, v =>
    if f₀ = f then (f₀, lineAdd ft l v) :: t else (f₀, ft) :: tableAdd t f l v

/-- Read `t[f][l]` with `defaultdict` defaults. -/
def tableGet (t : FileTable) (f : String) (l : Nat) : ℚ :=
  lineGet (fileGet t f) l

/-- `sum(d.values())` over one file's per-line table. -/
def lineValuesSum : LineTable → ℚ
  | [] => 0
  | (_, v) :: t => v + lineValuesSum t

/-! ### Profiler state -/

/-- The signal dispositions and interval-timer value managed through
`signal.signal` and `signal.setitimer`. -/
structure SignalState where
  cpu_ignored : Bool
  malloc_ignored : Bool
  free_ignored : Bool
  itimer : ℚ
deriving DecidableEq, Repr

/-- The class-level mutable state of `Scalene` (lines 57-72): the four
sample tables, the global counters, and the sampling/timer state.  Process
times and accumulators are exact rationals. -/
structure State where
  cpu_samples_python : FileTable
  cpu_samples_c : FileTable
  memory_free_samples : FileTable
  memory_malloc_samples : FileTable
  total_cpu_samples : ℚ
  total_memory_free_samples : Nat
  total_memory_malloc_samples : Nat
  last_signal_interval : ℚ
  last_signal_time : ℚ
  elapsed_time : ℚ
  signals : SignalState
deriving DecidableEq, Repr

/-- `Scalene.mean_signal_interval = 0.01` (line 67). -/
def mean_signal_interval : ℚ := 1 / 100

/-- The state right after `Scalene.__init__` ran at process time `t0`:
empty tables, zero counters, `last_signal_interval = 0.01`, all three
handlers installed, the CPU itimer armed with the mean interval, and
`last_signal_time` set to the `gettime()` reading `t0` (lines 98-111). -/
def initState (t0 : ℚ) : State where
  cpu_samples_python := []
  cpu_samples_c := []
  memory_free_samples := []
  memory_malloc_samples := []
  total_cpu_samples := 0
  total_memory_free_samples := 0
  total_memory_malloc_samples := 0
  last_signal_interval := mean_signal_interval
  last_signal_time := t0
  elapsed_time := 0
  signals := { cpu_ignored := false, malloc_ignored := false,
               free_ignored := false, itimer := mean_signal_interval }

/-! ### Frames and interrupt handlers -/

/-- A Python frame as the handlers see it: `f_code.co_filename`,
`f_lineno`, and the `f_back` chain (`None` at the outermost frame). -/
inductive Frame where
  | mk (co_filename : String) (f_lineno : Nat) (f_back : Option Frame)

/-- `frame.f_code.co_filename`. -/
def Frame.co_filename : Frame → String
  | .mk f _ _ => f

/-- `frame.f_lineno`. -/
def Frame.f_lineno : Frame → Nat
  | .mk _ l _ => l

/-- `frame.f_back`. -/
def Frame.f_back : Frame → Option Frame
  | .mk _ _ b => b

/-- Lines 121-126 of `cpu_signal_handler`: take the frame's filename, and
if it is empty look one frame up; `frame.f_back.f_code` raises
`AttributeError` when `f_back` is `None`. -/
def resolve_fname (frame : Frame) : Except PyErr String :=
  if frame.co_filename.length = 0 then
    match frame.f_back with
    | none => .error .attributeError
    | some fb => .ok fb.co_filename
  else .ok frame.co_filename

/-- Model of `Scalene.cpu_signal_handler` (lines 114-157).  `now1` is the
`gettime()` reading taken at entry, `now2` the second reading stored into
`last_signal_time`, and `u` the value `random.uniform` returns for the
fresh interval.  The skip branch (filter fails) only rearms the timer and
updates the timing state; the attribution branch increments the Python
sample count by one, adds the inferred native fraction, and adds the
weighted sample to the global total. -/
def cpu_signal_handler (pp cwd : String) (frame : Frame) (now1 now2 u : ℚ)
    (st : State) : Except PyErr State :=
  let elapsed_since_last_signal := now1 - st.last_signal_time
  Except.bind (resolve_fname frame) fun fname =>
  Except.bind (should_trace pp cwd fname) fun b =>
  if b then
    let c_time := elapsed_since_last_signal - st.last_signal_interval
    .ok { st with
      cpu_samples_python := tableAdd st.cpu_samples_python fname frame.f_lineno 1,
      cpu_samples_c :=
        tableAdd st.cpu_samples_c fname frame.f_lineno (c_time / st.last_signal_interval),
      total_cpu_samples :=
        st.total_cpu_samples + elapsed_since_last_signal / st.last_signal_interval,
      last_signal_interval := u,
      last_signal_time := now2,
      signals := { st.signals with itimer := u } }
  else
    .ok { st with
      last_signal_time := now2,
      last_signal_interval := u,
      signals := { st.signals with itimer := u } }

/-- Model of `Scalene.malloc_signal_handler` (lines 159-168). -/
def malloc_signal_handler (pp cwd : String) (frame : Frame) (st : State) :
    Except PyErr State :=
  Except.bind (should_trace pp cwd frame.co_filename) fun b =>
  if b then
    .ok { st with
      memory_malloc_samples :=
        tableAdd st.memory_malloc_samples frame.co_filename frame.f_lineno 1,
      total_memory_malloc_samples := st.total_memory_malloc_samples + 1 }
  else .ok st

/-- Model of `Scalene.free_signal_handler` (lines 170-179). -/
def free_signal_handler (pp cwd : String) (frame : Frame) (st : State) :
    Except PyErr State :=
  Except.bind (should_trace pp cwd frame.co_filename) fun b =>
  if b then
    .ok { st with
      memory_free_samples :=
        tableAdd st.memory_free_samples frame.co_filename frame.f_lineno 1,
      total_memory_free_samples := st.total_memory_free_samples + 1 }
  else .ok st

/-! ### Lifecycle -/

/-- Model of `Scalene.disable_signals` (lines 278-287): all three signals
set to `SIG_IGN` and the itimer disarmed. -/
def disable_signals (st : State) : State :=
  { st with signals := { cpu_ignored := true, malloc_ignored := true,
                         free_ignored := true, itimer := 0 } }

/-- Model of `Scalene.start` (lines 196-199) at `gettime()` reading `now`. -/
def start (now : ℚ) (st : State) : State :=
  { st with elapsed_time := now }

/-- Model of `Scalene.stop` (lines 201-205) at `gettime()` reading `now`:
disable the signals, then overwrite `elapsed_time` with
`gettime() - elapsed_time`. -/
def stop (now : ℚ) (st : State) : State :=
  let st1 := disable_signals st
  { st1 with elapsed_time := now - st1.elapsed_time }

/-- Model of `Scalene.exit_handler` (lines 289-292). -/
def exit_handler (st : State) : State :=
  disable_signals st

/-! ### Report-time computations (`output_profiles`) -/

/-- Line 222: `did_sample_memory = (total_memory_free_samples +
total_memory_malloc_samples) > 1`; it decides whether the memory columns
are printed at all. -/
def did_sample_memory (st : State) : Bool :=
  decide (st.total_memory_free_samples + st.total_memory_malloc_samples > 1)

/-- Line 228: the per-file CPU total, the raw sum of the file's C samples
plus the sum of its Python samples. -/
def this_cpu_samples (st : State) (fname : String) : ℚ :=
  lineValuesSum (fileGet st.cpu_samples_c fname) +
    lineValuesSum (fileGet st.cpu_samples_python fname)

/-- `sum(d.values())` with every value clamped to be nonnegative. -/
def lineValuesClampedSum : LineTable → ℚ
  | [] => 0
  | (_, v) :: t => (if v < 0 then 0 else v) + lineValuesClampedSum t

/-- The per-file CPU total as §4.5 of the spec words it: each `nativeCpu`
entry is clamped to `≥ 0` before entering the file total.  Stated from the
spec for comparison against `this_cpu_samples`, which the code computes. -/
def this_cpu_samples_clamped (st : State) (fname : String) : ℚ :=
  lineValuesClampedSum (fileGet st.cpu_samples_c fname) +
    lineValuesSum (fileGet st.cpu_samples_python fname)

/-- Lines 245-249: the per-line C sample count, clamped to `0` when the
stored value is negative. -/
def n_cpu_samples_c (st : State) (f : String) (l : Nat) : ℚ :=
  let n := tableGet st.cpu_samples_c f l
  if n < 0 then 0 else n

/-- Lines 252-257: the per-line native-CPU percentage (`0` when no CPU
samples were collected). -/
def n_cpu_percent_c (st : State) (f : String) (l : Nat) : ℚ :=
  if st.total_cpu_samples ≠ 0 then
    n_cpu_samples_c st f l * 100 / st.total_cpu_samples
  else 0

/-- Lines 250-257: the per-line interpreted-CPU percentage. -/
def n_cpu_percent_python (st : State) (f : String) (l : Nat) : ℚ :=
  if st.total_cpu_samples ≠ 0 then
    tableGet st.cpu_samples_python f l * 100 / st.total_cpu_samples
  else 0

/-! ### Interrupt traces

A run of the profiler is a list of interrupt deliveries folded over the
handlers.  A CPU delivery carries the two `gettime()` readings the handler
takes and the value `random.uniform` returns; validity constrains the
readings to be monotone and the uniform draw to lie in its support
`[mean/2, 3·mean/2]`. -/

/-- One asynchronous interrupt delivery. -/
inductive Event where
  | cpu (frame : Frame) (now1 now2 u : ℚ)
  | malloc (frame : Frame)
  | free (frame : Frame)

/-- Environment constraints on a delivery in state `st`: process time is
monotone, and `random.uniform(mean/2, mean*3/2)` returns a value of its
support. -/
def validEvent (st : State) : Event → Bool
  | .cpu _ now1 now2 u =>
    decide (st.last_signal_time ≤ now1) && decide (now1 ≤ now2) &&
      decide (mean_signal_interval / 2 ≤ u) &&
      decide (u ≤ 3 * mean_signal_interval / 2)
  | .malloc _ => true
  | .free _ => true

/-- Dispatch one delivery to its handler. -/
def stepEvent (pp cwd : String) (st : State) : Event → Except PyErr State
  | .cpu frame now1 now2 u => cpu_signal_handler pp cwd frame now1 now2 u st
  | .malloc frame => malloc_signal_handler pp cwd frame st
  | .free frame => free_signal_handler pp cwd frame st

/-- Run a list of deliveries from `st`; `none` if a delivery violates the
environment constraints or a handler raises. -/
def runFrom (pp cwd : String) (st : State) : List Event → Option State
  | [] => some st
  | ev :: evs =>
    if validEvent st ev then
      match stepEvent pp cwd st ev with
      | .ok st' => runFrom pp cwd st' evs
      | .error _ => none
    else none

/-! ### The spec's containment predicate

§4.1(c) of the spec words acceptance as containment in the program's root
directory.  The predicate below follows those words, to be compared with
what `should_trace` actually computes. -/

/-- The spec's acceptance condition on the canonical absolute path: equal
to the program's root directory, or a descendant of it (stated from the
spec's words, not from the code). -/
def descendant_or_equal (root p : String) : Bool :=
  decide (p = root) || decide ((root ++ "/").data <+: p.data)

/-! ### Concrete traces used by witnesses and counterexamples -/

/-- A CPU interrupt whose measured elapsed time `99/10000` falls `1%` short
of the armed interval `1/100`, as the measurement ordering of the handler
permits: the native sample computed from it is negative. -/
def cexEvent : Event :=
  .cpu (Frame.mk "/a/x.py" 1 none) (99 / 10000) (99 / 10000) (1 / 100)

/-- The state `cexEvent` drives `initState 0` to (program root `/a`,
working directory `/a`). -/
def cexState : State where
  cpu_samples_python := [("/a/x.py", [(1, 1)])]
  cpu_samples_c := [("/a/x.py", [(1, -1 / 100)])]
  memory_free_samples := []
  memory_malloc_samples := []
  total_cpu_samples := 99 / 100
  total_memory_free_samples := 0
  total_memory_malloc_samples := 0
  last_signal_interval := 1 / 100
  last_signal_time := 99 / 10000
  elapsed_time := 0
  signals := { cpu_ignored := false, malloc_ignored := false,
               free_ignored := false, itimer := 1 / 100 }

/-- A CPU interrupt delivered with elapsed time `1/50`, twice the armed
interval: both sample kinds come out nonnegative. -/
def wEvent : Event :=
  .cpu (Frame.mk "/a/x.py" 1 none) (1 / 50) (1 / 50) (1 / 100)

/-- The state `wEvent` drives `initState 0` to. -/
def wState : State where
  cpu_samples_python := [("/a/x.py", [(1, 1)])]
  cpu_samples_c := [("/a/x.py", [(1, 1)])]
  memory_free_samples := []
  memory_malloc_samples := []
  total_cpu_samples := 2
  total_memory_free_samples := 0
  total_memory_malloc_samples := 0
  last_signal_interval := 1 / 100
  last_signal_time := 1 / 50
  elapsed_time := 0
  signals := { cpu_ignored := false, malloc_ignored := false,
               free_ignored := false, itimer := 1 / 100 }

/-- A single malloc interrupt at an in-scope location. -/
def c5Event : Event := .malloc (Frame.mk "/a/x.py" 3 none)

/-- The state `c5Event` drives `initState 0` to: exactly one memory event
recorded in the whole run. -/
def c5State : State where
  cpu_samples_python := []
  cpu_samples_c := []
  memory_free_samples := []
  memory_malloc_samples := [("/a/x.py", [(3, 1)])]
  total_cpu_samples := 0
  total_memory_free_samples := 0
  total_memory_malloc_samples := 1
  last_signal_interval := 1 / 100
  last_signal_time := 0
  elapsed_time := 0
  signals := { cpu_ignored := false, malloc_ignored := false,
               free_ignored := false, itimer := 1 / 100 }

/-! ### The memoized filter (`functools.lru_cache(128)`)

`should_trace` is decorated with `lru_cache(128)`.  The cache is embedded
as a most-recent-first association list capped at 128 entries: a hit moves
its entry to the front, a miss computes, inserts at the front and drops
the least-recently-used entry beyond capacity; a raised exception is not
cached.  The working directory — which `os.path.abspath` consults for
relative filenames — is part of the filter's environment and changes via
`os.chdir`. -/

/-- The memo cache: most-recent-first `(raw filename, cached boolean)`. -/
abbrev Cache := List (String × Bool)

/-- The cache capacity of `lru_cache(128)` (line 182). -/
def lruCapacity : Nat := 128

/-- Cache lookup. -/
def cacheFind : Cache → String → Option Bool
  | [], _ => none
  | (k, v) :: c, f => if k = f then some v else cacheFind c f

/-- The filter's environment: the process working directory and the memo
cache. -/
structure FilterState where
  cwd : String
  cache : Cache
deriving DecidableEq, Repr

/-- Model of the decorated `Scalene.should_trace`: consult the cache,
else run the underlying function under the current working directory and
memoize a successful result. -/
def cached_should_trace (pp : String) (fs : FilterState) (fname : String) :
    Except PyErr Bool × FilterState :=
  match cacheFind fs.cache fname with
  | some v =>
    (.ok v, { fs with cache := (fname, v) :: fs.cache.filter (fun p => decide (p.1 ≠ fname)) })
  | none =>
    match should_trace pp fs.cwd fname with
    | .error e => (.error e, fs)
    | .ok v => (.ok v, { fs with cache := ((fname, v) :: fs.cache).take lruCapacity })

/-- What the process does between two filter queries: query the filter on
a raw filename, or change the working directory (`os.chdir`, available to
the profiled program at any time). -/
inductive FOp where
  | chdir (d : String)
  | query (f : String)

/-- Run a list of operations, collecting each query's outcome. -/
def runFilterOps (pp : String) (fs : FilterState) :
    List FOp → FilterState × List (Except PyErr Bool)
  | [] => (fs, [])
  | .chdir d :: ops => runFilterOps pp { fs with cwd := d } ops
  | .query f :: ops =>
    let r := cached_should_trace pp fs f
    let rest := runFilterOps pp r.2 ops
    (rest.1, r.1 :: rest.2)

/-- The operation list refuting filter determinism: query the relative
filename `m.py` under working directory `/a`, query 128 further distinct
filenames (filling the cache and evicting `m.py`), change the working
directory to `/x`, and query `m.py` again. -/
def c9Ops : List FOp :=
  FOp.query "m.py" ::
    ((List.range lruCapacity).map
        (fun i => FOp.query (String.mk ('/' :: 'b' :: Nat.toDigits 10 i))) ++
      [FOp.chdir "/x", FOp.query "m.py"])

/-- The query outcomes of `c9Ops` from an empty cache, program root `/a`,
initial working directory `/a`. -/
def c9Results : List (Except PyErr Bool) :=
  (runFilterOps "/a" { cwd := "/a", cache := [] } c9Ops).2

/-! ### Invariants -/

/-- The induction invariant of reachable running states: the armed interval
stays inside the jitter support, and each location's Python-plus-C sample
mass never exceeds the weighted global total. -/
def Inv (st : State) : Prop :=
  mean_signal_interval / 2 ≤ st.last_signal_interval ∧
    st.last_signal_interval ≤ 3 * mean_signal_interval / 2 ∧
    ∀ f l, tableGet st.cpu_samples_python f l + tableGet st.cpu_samples_c f l ≤
      st.total_cpu_samples

/-- Every cached boolean was produced by the underlying filter under some
working directory. -/
def CacheOK (pp : String) (c : Cache) : Prop :=
  ∀ q ∈ c, ∃ w, should_trace pp w q.1 = .ok q.2

/-! ### Table lemmas -/

theorem lineGet_lineAdd (t : LineTable) (l l' : Nat) (v : ℚ) :
    lineGet (lineAdd t l v) l' = lineGet t l' + (if l' = l then v else 0) := by
  induction t with
  | nil =>
    simp only [lineAdd, lineGet]
    by_cases h : l = l'
    · subst h; simp
    · rw [if_neg h, if_neg fun hh => h hh.symm, zero_add]
  | cons p t ih =>
    obtain ⟨l₀, x⟩ := p
    by_cases h₀ : l₀ = l
    · subst h₀
      simp only [lineAdd, if_pos rfl, lineGet]
      by_cases h₁ : l₀ = l'
      · subst h₁; simp
      · rw [if_neg h₁, if_neg h₁, if_neg fun hh => h₁ hh.symm, add_zero]
    · simp only [lineAdd, if_neg h₀, lineGet]
      by_cases h₁ : l₀ = l'
      · subst h₁
        rw [if_pos rfl, if_pos rfl, if_neg h₀, add_zero]
      · rw [if_neg h₁, if_neg h₁, ih]

theorem fileGet_tableAdd (t : FileTable) (f f' : String) (l : Nat) (v : ℚ) :
    fileGet (tableAdd t f l v) f' =
      if f' = f then lineAdd (fileGet t f) l v else fileGet t f' := by
  induction t with
  | nil =>
    simp only [tableAdd, fileGet]
    by_cases h : f = f'
    · subst h; simp
    · rw [if_neg h, if_neg fun hh => h hh.symm]
  | cons p t ih =>
    obtain ⟨f₀, ft⟩ := p
    by_cases h₀ : f₀ = f
    · subst h₀
      simp only [tableAdd, if_pos rfl, fileGet]
      by_cases h₁ : f₀ = f'
      · subst h₁; simp
      · rw [if_neg h₁, if_neg fun hh => h₁ hh.symm, if_neg h₁]
    · simp only [tableAdd, if_neg h₀, fileGet]
      by_cases h₁ : f₀ = f'
      · subst h₁
        rw [if_pos rfl, if_neg h₀, if_pos rfl]
      · rw [if_neg h₁, if_neg h₁, ih]

theorem tableGet_tableAdd (t : FileTable) (f f' : String) (l l' : Nat) (v : ℚ) :
    tableGet (tableAdd t f l v) f' l' =
      tableGet t f' l' + (if f' = f ∧ l' = l then v else 0) := by
  unfold tableGet
  rw [fileGet_tableAdd]
  by_cases hf : f' = f
  · subst hf
    rw [if_pos rfl, lineGet_lineAdd]
    by_cases hl : l' = l
    · rw [if_pos hl, if_pos ⟨rfl, hl⟩]
    · rw [if_neg hl, if_neg fun hh => hl hh.2]
  · rw [if_neg hf, if_neg fun hh => hf hh.1, add_zero]

theorem lineValuesClampedSum_eq (t : LineTable) (h : ∀ p ∈ t, 0 ≤ p.2) :
    lineValuesClampedSum t = lineValuesSum t := by
  induction t with
  | nil => rfl
  | cons p t ih =>
    simp only [lineValuesClampedSum, lineValuesSum]
    rw [if_neg (not_lt.mpr (h p (List.mem_cons_self ..))),
      ih fun q hq => h q (List.mem_cons_of_mem _ hq)]

/-! ### Invariant preservation -/

theorem Inv_initState (t0 : ℚ) : Inv (initState t0) := by
  refine ⟨by norm_num [initState, mean_signal_interval],
    by norm_num [initState, mean_signal_interval], ?_⟩
  intro f l
  simp [initState, tableGet, fileGet, lineGet]

theorem Inv_step (pp cwd : String) (st st' : State) (ev : Event)
    (hInv : Inv st) (hv : validEvent st ev = true)
    (hstep : stepEvent pp cwd st ev = .ok st') : Inv st' := by
  obtain ⟨hlo, hhi, hkey⟩ := hInv
  have hipos : 0 < st.last_signal_interval :=
    lt_of_lt_of_le (by norm_num [mean_signal_interval]) hlo
  cases ev with
  | cpu frame now1 now2 u =>
    simp only [validEvent, Bool.and_eq_true, decide_eq_true_eq] at hv
    obtain ⟨⟨⟨h1, h2⟩, h3⟩, h4⟩ := hv
    simp only [stepEvent, cpu_signal_handler] at hstep
    cases hres : resolve_fname frame with
    | error e => rw [hres] at hstep; exact absurd hstep (by simp [Except.bind])
    | ok fname =>
      rw [hres] at hstep
      simp only [Except.bind] at hstep
      cases htr : should_trace pp cwd fname with
      | error e => rw [htr] at hstep; exact absurd hstep (by simp)
      | ok b =>
        rw [htr] at hstep
        cases b with
        | false =>
          simp only [Bool.false_eq_true, if_false, Except.ok.injEq] at hstep
          subst hstep
          exact ⟨h3, h4, fun f l => hkey f l⟩
        | true =>
          simp only [if_true, Except.ok.injEq] at hstep
          subst hstep
          refine ⟨h3, h4, ?_⟩
          intro f l
          simp only [tableGet_tableAdd]
          set e := now1 - st.last_signal_time with he
          set i := st.last_signal_interval with hi
          have hie : (0 : ℚ) ≤ e := sub_nonneg.mpr h1
          have hin : (i : ℚ) ≠ 0 := ne_of_gt hipos
          have hdiv : (0 : ℚ) ≤ e / i := div_nonneg hie (le_of_lt hipos)
          have hsum : (1 : ℚ) + (e - i) / i = e / i := by field_simp
          have hk := hkey f l
          by_cases hc : f = fname ∧ l = frame.f_lineno
          · rw [if_pos hc, if_pos hc]
            linarith
          · rw [if_neg hc, if_neg hc]
            linarith
  | malloc frame =>
    simp only [stepEvent, malloc_signal_handler] at hstep
    cases htr : should_trace pp cwd frame.co_filename with
    | error e => rw [htr] at hstep; exact absurd hstep (by simp [Except.bind])
    | ok b =>
      rw [htr] at hstep
      simp only [Except.bind] at hstep
      cases b with
      | false =>
        simp only [Bool.false_eq_true, if_false, Except.ok.injEq] at hstep
        subst hstep
        exact ⟨hlo, hhi, hkey⟩
      | true =>
        simp only [if_true, Except.ok.injEq] at hstep
        subst hstep
        exact ⟨hlo, hhi, fun f l => hkey f l⟩
  | free frame =>
    simp only [stepEvent, free_signal_handler] at hstep
    cases htr : should_trace pp cwd frame.co_filename with
    | error e => rw [htr] at hstep; exact absurd hstep (by simp [Except.bind])
    | ok b =>
      rw [htr] at hstep
      simp only [Except.bind] at hstep
      cases b with
      | false =>
        simp only [Bool.false_eq_true, if_false, Except.ok.injEq] at hstep
        subst hstep
        exact ⟨hlo, hhi, hkey⟩
      | true =>
        simp only [if_true, Except.ok.injEq] at hstep
        subst hstep
        exact ⟨hlo, hhi, fun f l => hkey f l⟩

theorem Inv_run (pp cwd : String) (evs : List Event) (st st' : State)
    (hInv : Inv st) (hrun : runFrom pp cwd st evs = some st') : Inv st' := by
  induction evs generalizing st with
  | nil =>
    simp only [runFrom, Option.some.injEq] at hrun
    subst hrun
    exact hInv
  | cons ev evs ih =>
    simp only [runFrom] at hrun
    by_cases hv : validEvent st ev = true
    · rw [if_pos hv] at hrun
      cases hstep : stepEvent pp cwd st ev with
      | error e => rw [hstep] at hrun; cases hrun
      | ok st1 =>
        rw [hstep] at hrun
        exact ih st1 (Inv_step pp cwd st st1 ev hInv hv hstep) hrun
    · rw [if_neg hv] at hrun
      cases hrun

/-! ### Filter-cache lemmas -/

theorem abspath_of_isAbs (c₁ c₂ p : String) (h : isAbs p = true) :
    abspath c₁ p = abspath c₂ p := by
  unfold abspath
  rw [if_pos h, if_pos h]

theorem should_trace_cwd_irrelevant (pp c₁ c₂ f : String) (h : isAbs f = true) :
    should_trace pp c₁ f = should_trace pp c₂ f := by
  unfold should_trace
  cases hd : f.data with
  | nil => rfl
  | cons c rest => rw [abspath_of_isAbs c₁ c₂ f h]

theorem cacheFind_mem (c : Cache) (f : String) (v : Bool)
    (h : cacheFind c f = some v) : (f, v) ∈ c := by
  induction c with
  | nil => cases h
  | cons p c ih =>
    obtain ⟨k, w⟩ := p
    by_cases hk : k = f
    · subst hk
      simp only [cacheFind, if_true] at h
      injection h with h
      subst h
      exact List.mem_cons_self ..
    · simp only [cacheFind, if_neg hk] at h
      exact List.mem_cons_of_mem _ (ih h)

theorem CacheOK_query (pp : String) (fs : FilterState) (f : String)
    (h : CacheOK pp fs.cache) :
    CacheOK pp (cached_should_trace pp fs f).2.cache := by
  unfold cached_should_trace
  cases hfind : cacheFind fs.cache f with
  | some v =>
    intro q hq
    simp only at hq
    rcases List.mem_cons.mp hq with hq | hq
    · subst hq
      exact h _ (cacheFind_mem _ _ _ hfind)
    · exact h _ (List.mem_filter.mp hq).1
  | none =>
    cases htr : should_trace pp fs.cwd f with
    | error e => exact h
    | ok v =>
      intro q hq
      simp only at hq
      rcases List.mem_cons.mp (List.take_subset _ _ hq) with hq' | hq'
      · subst hq'
        exact ⟨fs.cwd, htr⟩
      · exact h _ hq'

theorem CacheOK_runFilterOps (pp : String) (fs : FilterState) (ops : List FOp)
    (h : CacheOK pp fs.cache) : CacheOK pp (runFilterOps pp fs ops).1.cache := by
  induction ops generalizing fs with
  | nil => exact h
  | cons op ops ih =>
    cases op with
    | chdir d => exact ih _ h
    | query f => exact ih _ (CacheOK_query pp fs f h)

theorem cached_query_abs (pp : String) (fs : FilterState) (f : String)
    (hok : CacheOK pp fs.cache) (habs : isAbs f = true) :
    (cached_should_trace pp fs f).1 = should_trace pp "/" f := by
  unfold cached_should_trace
  cases hfind : cacheFind fs.cache f with
  | some v =>
    obtain ⟨w, hw⟩ := hok _ (cacheFind_mem _ _ _ hfind)
    simp only
    rw [← hw]
    exact should_trace_cwd_irrelevant pp w "/" f habs
  | none =>
    rw [← should_trace_cwd_irrelevant pp fs.cwd "/" f habs]
    cases htr : should_trace pp fs.cwd f <;> simp [htr]

/-! ### Concrete runs -/

theorem runFrom_cexEvent :
    runFrom "/a" "/a" (initState 0) [cexEvent] = some cexState := by
  have hres : resolve_fname (Frame.mk "/a/x.py" 1 none) = .ok "/a/x.py" := by decide
  have hst : should_trace "/a" "/a" "/a/x.py" = .ok true := by decide
  norm_num [runFrom, cexEvent, stepEvent, validEvent, initState, mean_signal_interval,
    cpu_signal_handler, hres, hst, Except.bind, Frame.f_lineno, tableAdd, lineAdd,
    cexState]

theorem runFrom_wEvent :
    runFrom "/a" "/a" (initState 0) [wEvent] = some wState := by
  have hres : resolve_fname (Frame.mk "/a/x.py" 1 none) = .ok "/a/x.py" := by decide
  have hst : should_trace "/a" "/a" "/a/x.py" = .ok true := by decide
  norm_num [runFrom, wEvent, stepEvent, validEvent, initState, mean_signal_interval,
    cpu_signal_handler, hres, hst, Except.bind, Frame.f_lineno, tableAdd, lineAdd,
    wState]

theorem runFrom_c5Event :
    runFrom "/a" "/a" (initState 0) [c5Event] = some c5State :=
  rfl

/-! ### Claim C1 -/

/-- C1: `should_trace` does NOT accept exactly the descendants of the
program's root directory.  With root `/a`, the absolute path
`/tmp/a/x.py` lies outside the root, yet the filter accepts it, because
line 194 tests Python substring containment (`program_path in filename`)
rather than path containment — contradicting the function's own comment
"Profile anything in the program's directory or a child directory, but
nothing else". -/
theorem C1_accepts_path_outside_root :
    should_trace "/a" "/" "/tmp/a/x.py" = .ok true ∧
      descendant_or_equal "/a" (abspath "/" "/tmp/a/x.py") = false := by
  decide

/-! ### Claim C2 -/

/-- C2: `malloc_signal_handler` does not run to completion on every frame:
on a frame whose `co_filename` is the empty string (an `eval`/`compile`
code unit), `should_trace` evaluates `filename[0]`, which raises
`IndexError`, and the exception propagates out of the handler instead of
degrading to a skipped attribution. -/
theorem C2_malloc_handler_raises_on_empty_filename (pp cwd : String) (l : Nat)
    (fb : Option Frame) (st : State) :
    malloc_signal_handler pp cwd (Frame.mk "" l fb) st = .error .indexError :=
  rfl

/-! ### Claim C3 -/

/-- C3 counterexample: at the reachable state `cexState` (one CPU interrupt
whose elapsed time fell short of the armed interval), the per-file total
computed by line 228 differs from the spec's clamped total: the negative
`nativeCpu` entry is summed raw, not clamped to `0`. -/
theorem C3_file_total_raw_cex :
    runFrom "/a" "/a" (initState 0) [cexEvent] = some cexState ∧
      this_cpu_samples cexState "/a/x.py" ≠
        this_cpu_samples_clamped cexState "/a/x.py" := by
  refine ⟨runFrom_cexEvent, ?_⟩
  norm_num [this_cpu_samples, this_cpu_samples_clamped, cexState, fileGet,
    lineValuesSum, lineValuesClampedSum]

/-- C3 amended: the per-file CPU total is the raw sum of the file's
`nativeCpu` entries plus the sum of its `interpretedCpu` entries — negative
entries subtract from it; it coincides with the spec's clamped total
exactly when every stored `nativeCpu` entry of the file is nonnegative. -/
theorem C3_file_total_amended (st : State) (f : String)
    (h : ∀ p ∈ fileGet st.cpu_samples_c f, 0 ≤ p.2) :
    this_cpu_samples st f = this_cpu_samples_clamped st f := by
  unfold this_cpu_samples this_cpu_samples_clamped
  rw [lineValuesClampedSum_eq _ h]

/-- Witness for C3 at the concrete state `wState`, whose `nativeCpu`
entries are nonnegative. -/
theorem C3_file_total_amended_witness :
    (∀ p ∈ fileGet wState.cpu_samples_c "/a/x.py", 0 ≤ p.2) ∧
      this_cpu_samples wState "/a/x.py" =
        this_cpu_samples_clamped wState "/a/x.py" :=
  ⟨by norm_num [wState, fileGet],
    C3_file_total_amended wState "/a/x.py" (by norm_num [wState, fileGet])⟩

/-! ### Claim C4 -/

/-- C4 counterexample: `cexState` is reachable (one CPU interrupt with
elapsed time `99/10000` against armed interval `1/100`, as the handler's
measurement ordering permits), has `totalCpuSamples = 99/100 > 0`, and its
line 1 of `/a/x.py` reports `cpuPercentPython + cpuPercentNative =
10000/99 > 100`: the report-time clamp of the negative `nativeCpu` entry
breaks the bound. -/
theorem C4_percent_sum_cex :
    runFrom "/a" "/a" (initState 0) [cexEvent] = some cexState ∧
      0 < cexState.total_cpu_samples ∧
      ¬(n_cpu_percent_python cexState "/a/x.py" 1 +
          n_cpu_percent_c cexState "/a/x.py" 1 ≤ 100) := by
  refine ⟨runFrom_cexEvent, by norm_num [cexState], ?_⟩
  norm_num [n_cpu_percent_python, n_cpu_percent_c, n_cpu_samples_c, cexState,
    tableGet, fileGet, lineGet]

/-- C4 amended: for every reachable state with a positive weighted sample
total, and every file and line whose stored `nativeCpu` entry is
nonnegative, the reported `cpuPercentPython + cpuPercentNative ≤ 100`;
lines with a negative stored entry can exceed the bound. -/
theorem C4_percent_sum_amended (pp cwd : String) (t0 : ℚ) (evs : List Event)
    (st : State) (f : String) (l : Nat)
    (h : runFrom pp cwd (initState t0) evs = some st)
    (hpos : 0 < st.total_cpu_samples)
    (hc : 0 ≤ tableGet st.cpu_samples_c f l) :
    n_cpu_percent_python st f l + n_cpu_percent_c st f l ≤ 100 := by
  obtain ⟨-, -, hkey⟩ := Inv_run pp cwd evs _ st (Inv_initState t0) h
  have hk := hkey f l
  have hne : st.total_cpu_samples ≠ 0 := ne_of_gt hpos
  unfold n_cpu_percent_python n_cpu_percent_c n_cpu_samples_c
  rw [if_pos hne, if_pos hne, if_neg (not_lt.mpr hc), div_add_div_same,
    div_le_iff₀ hpos]
  linarith

/-- Witness for C4 at the concrete reachable state `wState`. -/
theorem C4_percent_sum_amended_witness :
    runFrom "/a" "/a" (initState 0) [wEvent] = some wState ∧
      0 < wState.total_cpu_samples ∧
      0 ≤ tableGet wState.cpu_samples_c "/a/x.py" 1 ∧
      n_cpu_percent_python wState "/a/x.py" 1 +
          n_cpu_percent_c wState "/a/x.py" 1 ≤ 100 :=
  ⟨runFrom_wEvent, by norm_num [wState],
    by norm_num [wState, tableGet, fileGet, lineGet],
    C4_percent_sum_amended "/a" "/a" 0 [wEvent] wState "/a/x.py" 1
      runFrom_wEvent (by norm_num [wState])
      (by norm_num [wState, tableGet, fileGet, lineGet])⟩

/-! ### Claim C5 -/

/-- C5: with exactly one recorded memory event in the whole run — the
reachable state `c5State` — line 222's `did_sample_memory` is `false`
(the code compares the event total against `> 1`, contradicting its own
comment "If I have at least one memory sample, then we are profiling
memory"), so the memory columns are omitted, not present. -/
theorem C5_single_memory_event_omits_columns :
    runFrom "/a" "/a" (initState 0) [c5Event] = some c5State ∧
      c5State.total_memory_malloc_samples + c5State.total_memory_free_samples = 1 ∧
      did_sample_memory c5State = false :=
  ⟨runFrom_c5Event, rfl, rfl⟩

/-! ### Claim C6 -/

/-- C6 counterexample: `stop` is not idempotent.  After `start` at time 1
and a first `stop` at time 3 (`elapsed_time = 2`), a second `stop` at the
very same time 3 re-executes `elapsed_time = gettime() - elapsed_time`
and leaves `elapsed_time = 1 ≠ 2`. -/
theorem C6_stop_not_idempotent_cex :
    stop 3 (stop 3 (start 1 (initState 0))) ≠ stop 3 (start 1 (initState 0)) := by
  intro hcontra
  have helapsed := congrArg State.elapsed_time hcontra
  norm_num [stop, start, disable_signals, initState] at helapsed

/-- C6 amended: the signal-disabling part of `stop` is idempotent —
`disable_signals` is idempotent, a second `stop` leaves the signal state
unchanged, and the process-exit cleanup `exit_handler` after a `stop`
leaves the whole state unchanged — but a second `stop` at time `t₂`
overwrites the finalized `elapsed_time` with `t₂` minus the first stop's
`elapsed_time` instead of preserving it. -/
theorem C6_stop_amended (st : State) (t₁ t₂ : ℚ) :
    (stop t₂ (stop t₁ st)).signals = (stop t₁ st).signals ∧
      exit_handler (stop t₁ st) = stop t₁ st ∧
      disable_signals (disable_signals st) = disable_signals st ∧
      (stop t₂ (stop t₁ st)).elapsed_time = t₂ - (stop t₁ st).elapsed_time :=
  ⟨rfl, rfl, rfl, rfl⟩

/-! ### Claim C7 -/

/-- C7: a CPU interrupt whose resolved location fails the filter leaves
all four sample tables and all three global counters unchanged — the
handler's result state differs from the input state only in
`last_signal_time` (set to the fresh `gettime()` reading), in
`last_signal_interval` (set to the fresh uniform draw) and in the rearmed
itimer. -/
theorem C7_skip_updates_only_timing (pp cwd : String) (frame : Frame)
    (fname : String) (now1 now2 u : ℚ) (st : State)
    (hres : resolve_fname frame = .ok fname)
    (hfail : should_trace pp cwd fname = .ok false) :
    cpu_signal_handler pp cwd frame now1 now2 u st =
      .ok { st with last_signal_time := now2, last_signal_interval := u,
                    signals := { st.signals with itimer := u } } := by
  unfold cpu_signal_handler
  rw [hres]
  simp only [Except.bind]
  rw [hfail]
  simp

/-- Witness for C7: an interrupt at the out-of-scope file `/out.py`. -/
theorem C7_skip_updates_only_timing_witness :
    resolve_fname (Frame.mk "/out.py" 1 none) = .ok "/out.py" ∧
      should_trace "/a" "/" "/out.py" = .ok false ∧
      cpu_signal_handler "/a" "/" (Frame.mk "/out.py" 1 none) 2 3 (1 / 100)
          (initState 0) =
        .ok { (initState 0) with
              last_signal_time := 3,
              last_signal_interval := 1 / 100,
              signals := { (initState 0).signals with itimer := 1 / 100 } } :=
  ⟨by decide, by decide,
    C7_skip_updates_only_timing "/a" "/" (Frame.mk "/out.py" 1 none) "/out.py"
      2 3 (1 / 100) (initState 0) (by decide) (by decide)⟩

/-! ### Claim C8 -/

/-- C8: at every reachable state of the running profiler — after the
initial arming and after every rearm, attributed or skipped —
`last_signal_interval` lies in the closed interval
`[mean/2, 3·mean/2]` of the configured mean signal interval. -/
theorem C8_interval_in_jitter_range (pp cwd : String) (t0 : ℚ)
    (evs : List Event) (st : State)
    (h : runFrom pp cwd (initState t0) evs = some st) :
    mean_signal_interval / 2 ≤ st.last_signal_interval ∧
      st.last_signal_interval ≤ 3 * mean_signal_interval / 2 := by
  obtain ⟨h1, h2, -⟩ := Inv_run pp cwd evs _ st (Inv_initState t0) h
  exact ⟨h1, h2⟩

/-- Witness for C8 at the concrete one-interrupt trace `wEvent`. -/
theorem C8_interval_in_jitter_range_witness :
    runFrom "/a" "/a" (initState 0) [wEvent] = some wState ∧
      mean_signal_interval / 2 ≤ wState.last_signal_interval ∧
      wState.last_signal_interval ≤ 3 * mean_signal_interval / 2 :=
  ⟨runFrom_wEvent,
    C8_interval_in_jitter_range "/a" "/a" 0 [wEvent] wState runFrom_wEvent⟩

/-! ### Claim C9 -/

set_option maxRecDepth 100000 in
/-- C9 counterexample: the memoized filter is not deterministic across the
process lifetime.  In `c9Ops`, the relative filename `m.py` is queried
under working directory `/a` (accepted), 128 further distinct filenames
evict its entry from the 128-slot LRU cache, the profiled program changes
the working directory to `/x`, and the re-query of the same raw filename
`m.py` recomputes under the new directory and is rejected. -/
theorem C9_filter_nondeterministic_cex :
    c9Results.head? = some (Except.ok true) ∧
      c9Results.getLast? = some (Except.ok false) := by
  decide

/-- C9 amended: the memoized filter is deterministic for every absolute
raw filename — the underlying predicate is then independent of the
working directory, so any two queries, anywhere in any two runs, agree —
while for relative filenames determinism can fail once more than 128
distinct filenames evict the cached entry and the working directory has
changed. -/
theorem C9_deterministic_for_absolute (pp c₁ c₂ : String)
    (ops₁ ops₂ : List FOp) (f : String) (habs : isAbs f = true) :
    (cached_should_trace pp (runFilterOps pp ⟨c₁, []⟩ ops₁).1 f).1 =
      (cached_should_trace pp (runFilterOps pp ⟨c₂, []⟩ ops₂).1 f).1 := by
  have h₁ : CacheOK pp (FilterState.mk c₁ []).cache := by intro q hq; cases hq
  have h₂ : CacheOK pp (FilterState.mk c₂ []).cache := by intro q hq; cases hq
  rw [cached_query_abs pp _ f (CacheOK_runFilterOps pp ⟨c₁, []⟩ ops₁ h₁) habs,
    cached_query_abs pp _ f (CacheOK_runFilterOps pp ⟨c₂, []⟩ ops₂ h₂) habs]

/-- Witness for C9: the absolute filename `/a/y.py` queried at two points
of two different runs with different working directories. -/
theorem C9_deterministic_for_absolute_witness :
    isAbs "/a/y.py" = true ∧
      (cached_should_trace "/a" (runFilterOps "/a" ⟨"/a", []⟩ []).1 "/a/y.py").1 =
        (cached_should_trace "/a"
            (runFilterOps "/a" ⟨"/x", []⟩ [FOp.chdir "/y"]).1 "/a/y.py").1 :=
  ⟨by decide,
    C9_deterministic_for_absolute "/a" "/a" "/x" [] [FOp.chdir "/y"] "/a/y.py"
      (by decide)⟩

/-! ### Claim C10 -/

/-- C10: every filename containing the substring `scalene.py` anywhere —
including a user's own `myscalene.py` or a `scalene.py` inside the
profiled program's root — is rejected by the filter: line 190 tests
substring containment before any path resolution (and bracket-marked
names are rejected earlier still). -/
theorem C10_scalene_substring_rejected (pp cwd fname : String)
    (h : "scalene.py".data <:+: fname.data) :
    should_trace pp cwd fname = .ok false := by
  have hne : fname.data ≠ [] := by
    intro h0
    rw [h0] at h
    exact absurd (List.infix_nil.mp h) (by decide)
  unfold should_trace
  cases hd : fname.data with
  | nil => exact absurd hd hne
  | cons c rest =>
    show (if c = '<' then (Except.ok false : Except PyErr Bool)
      else if strIn "scalene.py" fname then .ok false
      else .ok (strIn pp (abspath cwd fname))) = .ok false
    by_cases hc : c = '<'
    · rw [if_pos hc]
    · rw [if_neg hc, if_pos (show strIn "scalene.py" fname = true from by
        unfold strIn; exact decide_eq_true h)]

/-- Witness for C10: the in-root user file `/a/myscalene.py` is rejected. -/
theorem C10_scalene_substring_rejected_witness :
    ("scalene.py".data <:+: "/a/myscalene.py".data) ∧
      should_trace "/a" "/a" "/a/myscalene.py" = .ok false :=
  ⟨by decide,
    C10_scalene_substring_rejected "/a" "/a" "/a/myscalene.py" (by decide)⟩

end Scalene
